import Mathlib

/-!
# Verification of the SAGA solver wrapper (`tick/optim/solver/saga.py`)

This development shallowly embeds the Python wrapper `SAGA` of the `tick`
library together with the native SAGA engine it delegates to.  The wrapper
code (enum mapping, `variance_reduction` property, `__init__`, `set_model`)
is translated directly from `src/tick/optim/solver/saga.py`.  The native
engine (gradient memory, per-step update rule, sampler, stopping loop,
seeding) is not shipped in the sources; those parts are modelled from the
specification and are marked `Modelled from the spec:` in their doc comments.

Real numbers of the program are modelled as rationals `ℚ`, so the
floating-point invariants become exact algebraic identities.
-/

namespace Tick

/-- The native enum `_SAGA.VarianceReductionMethod_*` with its three values
`Last`, `Average`, `Random` (`saga.py` lines 10-12). -/
inductive VarianceReductionMethod where
  | Last
  | Average
  | Random
deriving DecidableEq

/-- The dictionary `variance_reduction_methods_mapper` of `saga.py`
(lines 9-13), in its Python insertion order. -/
def variance_reduction_methods_mapper : List (String × VarianceReductionMethod) :=
  [("last", VarianceReductionMethod.Last),
   ("avg", VarianceReductionMethod.Average),
   ("rand", VarianceReductionMethod.Random)]

/-- The allowed strings, i.e. the keys of the mapper. -/
def vrKeys : List String := variance_reduction_methods_mapper.map Prod.fst

/-- The error taxonomy of the spec (§7).  The Python source raises
`ValueError` at both sites; the spec names the invalid-enum site
`ConfigurationError` and the `set_model` site `IncompatibleModelError`,
each carrying the message string of the source. -/
inductive SolverError where
  | configurationError (msg : String)
  | incompatibleModelError (msg : String)
deriving DecidableEq

/-- The message built by the `variance_reduction` setter
(`saga.py` lines 106-109): Python
`'variance_reduction should be one of "{}", got "{}".'.format(', '.join(keys), val)`. -/
def vrErrMsg (val : String) : String :=
  "variance_reduction should be one of \"" ++ String.intercalate ", " vrKeys ++
    "\", got \"" ++ val ++ "\"."

/-- An external model object, seen through the `isinstance` check of
`set_model`: the only capability the wrapper inspects is whether the object
is a `ModelGeneralizedLinear` (the generalized-linear gradient provider). -/
structure PyModel where
  isGeneralizedLinear : Bool
deriving DecidableEq

/-- The state of a constructed `SAGA` solver object: the configuration
stored by `SolverFirstOrderSto.__init__` and forwarded to the native
`_SAGA` constructor (`saga.py` lines 80-93), the native solver's
variance-reduction method, and the attached model (if any). -/
structure SAGAState where
  epoch_size : ℤ
  tol : ℚ
  rand_type : String
  step : ℚ
  seed : ℤ
  vrMethod : VarianceReductionMethod
  model : Option PyModel
deriving DecidableEq

/-- The `variance_reduction` setter (`saga.py` lines 102-112): looks the
string up in the mapper and fails with the descriptive `ValueError`
(spec: `ConfigurationError`) when it is absent. -/
def vrSetter (val : String) : Except SolverError VarianceReductionMethod :=
  match variance_reduction_methods_mapper.lookup val with
  | none => Except.error (SolverError.configurationError (vrErrMsg val))
  | some m => Except.ok m

/-- Assigning to the `variance_reduction` property of a solver: on success
the native method is updated, on failure the solver is left as it was and
the error propagates (`saga.py` lines 102-112). -/
def setVarianceReduction (st : SAGAState) (val : String) : Except SolverError SAGAState :=
  match vrSetter val with
  | Except.error e => Except.error e
  | Except.ok m => Except.ok { st with vrMethod := m }

/-- Reading the `variance_reduction` property (`saga.py` lines 97-100):
the first mapper key whose value equals the native solver's method, else
`None`. -/
def getVarianceReduction (st : SAGAState) : Option String :=
  (variance_reduction_methods_mapper.find? (fun kv => decide (kv.2 = st.vrMethod))).map
    Prod.fst

/-- `SAGA.__init__` (`saga.py` lines 74-95).  `SolverFirstOrderSto.__init__`
stores the parameters (spec §3 SolverConfig; that base class is not in the
sources).  A `None` step becomes `0.`, a `None` epoch_size becomes `0`,
the native `_SAGA` solver is constructed, and finally the
`variance_reduction` property is assigned; if that assignment raises, the
construction as a whole fails and no solver object is produced. -/
def SAGA_init (step : Option ℚ) (epoch_size : Option ℤ) (rand_type : String)
    (tol : ℚ) (seed : ℤ) (variance_reduction : String) :
    Except SolverError SAGAState :=
  let step' : ℚ := step.getD 0
  let es : ℤ := epoch_size.getD 0
  let st : SAGAState :=
    { epoch_size := es, tol := tol, rand_type := rand_type, step := step',
      seed := seed, vrMethod := VarianceReductionMethod.Last, model := none }
  setVarianceReduction st variance_reduction

/-- `SAGA.set_model` (`saga.py` lines 114-133): accepts exactly the childs
of `ModelGeneralizedLinear`, attaching the model via
`SolverFirstOrderSto.set_model` (the base class is not in the sources; the
spec, §4.4/§7, says it attaches the model and that rejection happens before
any solving), and raises (spec: `IncompatibleModelError`) otherwise. -/
def set_model (st : SAGAState) (model : PyModel) : Except SolverError SAGAState :=
  if model.isGeneralizedLinear then
    Except.ok { st with model := some model }
  else
    Except.error (SolverError.incompatibleModelError
      "SAGA accepts only childs of `ModelGeneralizedLinear`")

end Tick

namespace Tick

/-! ## GradientMemory

Modelled from the spec (§4.2): the native engine's gradient table and its
incrementally maintained running average.  Gradient vectors have dimension
`d` and are functions `Fin d → ℚ`. -/

/-- Modelled from the spec: `GradientMemory` (§4.2) — the `n × d` table of
per-sample gradients together with the running average vector; not present
in the sources (it lives in the wrapped native engine). -/
structure GradientMemory (n d : ℕ) where
  table : Fin n → Fin d → ℚ
  avg : Fin d → ℚ

/-- Modelled from the spec: at initialization all entries are implicitly
zero, and so is the average (§4.2 `get`). -/
def GradientMemory.init (n d : ℕ) : GradientMemory n d :=
  { table := fun _ _ => 0, avg := fun _ => 0 }

/-- Modelled from the spec: `get(i)` returns the last stored gradient for
sample `i` (§4.2). -/
def GradientMemory.get (m : GradientMemory n d) (i : Fin n) : Fin d → ℚ :=
  m.table i

/-- Modelled from the spec: `average()` returns the running mean vector in
O(1) (§4.2). -/
def GradientMemory.average (m : GradientMemory n d) : Fin d → ℚ :=
  m.avg

/-- Modelled from the spec: `update(i, new_gradient)` replaces row `i` and
maintains the average incrementally via `average += (g_new − g_old)/n`,
without recomputing it from scratch (§3 GradientAverage, §4.2). -/
def GradientMemory.update (m : GradientMemory n d) (i : Fin n) (g : Fin d → ℚ) :
    GradientMemory n d :=
  { table := Function.update m.table i g,
    avg := fun j => m.avg j + (g j - m.table i j) / (n : ℚ) }

/-- The mean of the gradient table recomputed from scratch. -/
def GradientMemory.trueMean (m : GradientMemory n d) : Fin d → ℚ :=
  fun j => (∑ i, m.table i j) / (n : ℚ)

/-- Apply a sequence of `update(i, g)` calls in order. -/
def GradientMemory.applyUpdates (m : GradientMemory n d) :
    List (Fin n × (Fin d → ℚ)) → GradientMemory n d
  | [] => m
  | (i, g) :: rest => (m.update i g).applyUpdates rest

/-- The central SAGA invariant: the running average equals the true mean of
the table. -/
def GradientMemory.avgInvariant (m : GradientMemory n d) : Prop :=
  ∀ j, m.average j = m.trueMean j

/-! ## SAGAEngine per-step rule -/

/-- The mutable state of the native engine: the current iterate and the
gradient memory. -/
structure EngineState (n d : ℕ) where
  x : Fin d → ℚ
  mem : GradientMemory n d

/-- Modelled from the spec: one step of `SAGAEngine` (§4.4, steps 1-5) for
sampled index `i`; the native per-step rule is not in the sources.  It
computes the fresh gradient, forms the corrected direction from the cached
gradient and cached average, takes the proximal step, and only then writes
the fresh gradient into the memory. -/
def sagaStep (grad : (Fin d → ℚ) → Fin n → Fin d → ℚ)
    (prox : (Fin d → ℚ) → ℚ → Fin d → ℚ) (η : ℚ)
    (s : EngineState n d) (i : Fin n) : EngineState n d :=
  let gi := grad s.x i
  let dir := fun j => gi j - s.mem.get i j + s.mem.average j
  let xnew := prox (fun j => s.x j - η * dir j) η
  { x := xnew, mem := s.mem.update i gi }

/-! ## Epoch size and step size defaulting -/

/-- The Python-side defaulting of `__init__` (`saga.py` lines 87-89): a
`None` epoch_size is forwarded to the native constructor as `0`. -/
def epochSizeArg (epoch_size : Option ℤ) : ℤ :=
  epoch_size.getD 0

/-- Modelled from the spec: inside the native engine, `epoch_size ≤ 0 must
default to n (the full dataset size) rather than error` (§4.4). -/
def effectiveEpochSize (es : ℤ) (n : ℕ) : ℤ :=
  if es ≤ 0 then (n : ℤ) else es

/-- The number of steps the engine performs per epoch, for a dataset of
size `n` and the constructor argument `epoch_size`. -/
def stepsPerEpoch (epoch_size : Option ℤ) (n : ℕ) : ℕ :=
  (effectiveEpochSize (epochSizeArg epoch_size) n).toNat

/-- The Python-side defaulting of `__init__` (`saga.py` lines 83-85): a
`None` step is forwarded to the native constructor as `0.`. -/
def stepArg (step : Option ℚ) : ℚ :=
  step.getD 0

/-- Modelled from the spec: the spec (§4.4, §9) requires the implementation
to pick one of the two admissible policies for a non-positive step size —
raise an error, or substitute an automatic heuristic derived from the
Model's Lipschitz estimate. -/
inductive StepPolicy where
  | raiseError
  | autoHeuristic
deriving DecidableEq

/-- Modelled from the spec: resolution of the step size at solve time
(§4.4).  `lip` is the Model's Lipschitz estimate.  A strictly positive step
is used as given; a non-positive one triggers the chosen policy — an error,
or the automatic heuristic `1 / lip`.  The native engine's actual choice is
not in the sources. -/
def resolveStep (pol : StepPolicy) (lip : ℚ) (step : ℚ) : Except SolverError ℚ :=
  if 0 < step then Except.ok step
  else
    match pol with
    | StepPolicy.raiseError =>
        Except.error (SolverError.configurationError "step should be positive")
    | StepPolicy.autoHeuristic => Except.ok (1 / lip)

/-! ## The per-epoch solve loop and the stopping criterion -/

/-- Modelled from the spec: the solve loop (§4.4 step 7, §4.5).  One epoch
is run, then the stopping criterion is checked once — the relative-change
`measure` falls below `tol` — and the loop stops either then or when
`max_iter` epochs have elapsed.  Returns the number of epochs actually run
and the final state.  Not present in the sources (it lives in the wrapped
native engine). -/
def solveLoop (runEpoch : σ → σ) (measure : σ → σ → ℚ) (tol : ℚ) :
    ℕ → σ → ℕ × σ
  | 0, s => (0, s)
  | max_iter + 1, s =>
    let s' := runEpoch s
    if measure s s' < tol then (1, s')
    else
      let r := solveLoop runEpoch measure tol max_iter s'
      (r.1 + 1, r.2)

/-- The number of epochs a solve performs. -/
def epochsRun (runEpoch : σ → σ) (measure : σ → σ → ℚ) (tol : ℚ)
    (max_iter : ℕ) (s0 : σ) : ℕ :=
  (solveLoop runEpoch measure tol max_iter s0).1

/-! ## Seeding and determinism -/

/-- Modelled from the spec: seed resolution (§4.1 Failure).  A seed of `−1`
or an unset seed is interpreted as "derive the seed from an entropy
source"; any other non-negative integer is used directly. -/
def resolveSeed (entropy : ℤ) : Option ℤ → ℤ
  | none => entropy
  | some s => if s = -1 then entropy else s

/-- Modelled from the spec: the native random generator is not in the
sources; any deterministic generator advanced purely by its own state
realises the contract "deterministic given a fixed seed and call count".
We use a standard linear congruential update. -/
def rngNext (s : ℤ) : ℤ :=
  (1103515245 * s + 12345) % 2147483648

/-- The generator state after `t` draws from a seed. -/
def rngState (seed : ℤ) : ℕ → ℤ
  | 0 => seed
  | t + 1 => rngNext (rngState seed t)

/-- Reduce a natural number to a sample index in `[0, n)`. -/
def natToFin (n : ℕ) [NeZero n] (i : ℕ) : Fin n :=
  ⟨i % n, Nat.mod_lt _ (Nat.pos_of_ne_zero (NeZero.ne n))⟩

/-- Modelled from the spec: uniform mode of `RandomSampler` (§4.1) —
the index drawn at call `t` (0-indexed), a pure function of the seed and
the call count. -/
def uniformIndex (n : ℕ) [NeZero n] (seed : ℤ) (t : ℕ) : Fin n :=
  natToFin n (rngState seed (t + 1)).toNat

/-- The sequence of the first `t` indices drawn by the uniform sampler. -/
def uniformSeq (n : ℕ) [NeZero n] (seed : ℤ) (t : ℕ) : List (Fin n) :=
  (List.range t).map (uniformIndex n seed)

/-- A solver run of `t` steps driven by the uniform sampler: fold the SAGA
per-step rule over the sampled indices. -/
def runSAGA (n d : ℕ) [NeZero n] (grad : (Fin d → ℚ) → Fin n → Fin d → ℚ)
    (prox : (Fin d → ℚ) → ℚ → Fin d → ℚ) (η : ℚ) (seed : ℤ) (t : ℕ)
    (s0 : EngineState n d) : EngineState n d :=
  (uniformSeq n seed t).foldl (sagaStep grad prox η) s0

/-! ## RandomSampler, permutation mode -/

/-- Modelled from the spec: the state of `RandomSampler` in permutation
mode (§3 SamplerState) — the current shuffled sequence of indices, the
cursor into it, and how many permutations have been generated so far. -/
structure PermSamplerState where
  permArr : List ℕ
  cursor : ℕ
  epoch : ℕ
deriving DecidableEq

/-- Modelled from the spec: construction of the permutation sampler (§4.1)
generates a first permutation (`gen 0`, where `gen k` is the `k`-th
permutation the random generator produces) and sets the cursor to `0`. -/
def permInit (gen : ℕ → List ℕ) : PermSamplerState :=
  { permArr := gen 0, cursor := 0, epoch := 1 }

/-- Modelled from the spec: `next_index` in permutation mode (§4.1) —
whenever the internal cursor reaches `n`, a fresh permutation is generated
and the cursor resets to `0`; each call returns the next element and
advances the cursor. -/
def permNext (n : ℕ) (gen : ℕ → List ℕ) (s : PermSamplerState) :
    ℕ × PermSamplerState :=
  if n ≤ s.cursor then
    let p := gen s.epoch
    (p.getD 0 0, { permArr := p, cursor := 1, epoch := s.epoch + 1 })
  else
    (s.permArr.getD s.cursor 0,
     { permArr := s.permArr, cursor := s.cursor + 1, epoch := s.epoch })

/-- Run `t` calls of `next_index`, collecting the returned indices. -/
def permRun (n : ℕ) (gen : ℕ → List ℕ) : ℕ → PermSamplerState →
    List ℕ × PermSamplerState
  | 0, s => ([], s)
  | t + 1, s =>
    let r := permNext n gen s
    let rest := permRun n gen t r.2
    (r.1 :: rest.1, rest.2)

/-- The state of the sampler after the `k`-th epoch-aligned block of `n`
calls starting from a fresh sampler. -/
def permStateAfter (n : ℕ) (gen : ℕ → List ℕ) : ℕ → PermSamplerState
  | 0 => permInit gen
  | k + 1 => { permArr := gen k, cursor := n, epoch := k + 1 }

/-- The indices returned by calls `k·n + 1 … (k+1)·n` (the `(k+1)`-st
aligned block of `n` consecutive calls) of a fresh permutation sampler. -/
def permBlock (n : ℕ) (gen : ℕ → List ℕ) (k : ℕ) : List ℕ :=
  (permRun n gen n (permRun n gen (k * n) (permInit gen)).2).1

/-! ## Lemmas: the GradientMemory average invariant -/

theorem GradientMemory.avgInvariant_init (n d : ℕ) :
    (GradientMemory.init n d).avgInvariant := by
  intro j
  simp [GradientMemory.init, GradientMemory.average, GradientMemory.trueMean]

theorem GradientMemory.sum_update {n d : ℕ} (m : GradientMemory n d)
    (i : Fin n) (g : Fin d → ℚ) (j : Fin d) :
    (∑ i', (m.update i g).table i' j) =
      (∑ i', m.table i' j) + (g j - m.table i j) := by
  have hfun : (fun i' => (m.update i g).table i' j) =
      Function.update (fun i' => m.table i' j) i (g j) := by
    funext i'
    by_cases hi : i' = i
    · subst hi
      simp [GradientMemory.update, Function.update_same]
    · simp [GradientMemory.update, Function.update_noteq hi]
  calc (∑ i', (m.update i g).table i' j)
      = ∑ i', Function.update (fun i'' => m.table i'' j) i (g j) i' := by
        rw [show (fun i' => (m.update i g).table i' j) =
            Function.update (fun i'' => m.table i'' j) i (g j) from hfun]
    _ = g j + ∑ i' ∈ Finset.univ \ {i}, m.table i' j :=
        Finset.sum_update_of_mem (Finset.mem_univ i) _ _
    _ = g j + ((∑ i', m.table i' j) - m.table i j) := by
        rw [Finset.sdiff_singleton_eq_erase,
          Finset.sum_erase_eq_sub (Finset.mem_univ i)]
    _ = (∑ i', m.table i' j) + (g j - m.table i j) := by ring

theorem GradientMemory.avgInvariant_update {n d : ℕ} {m : GradientMemory n d}
    (h : m.avgInvariant) (i : Fin n) (g : Fin d → ℚ) :
    (m.update i g).avgInvariant := by
  intro j
  have hsum := m.sum_update i g j
  calc (m.update i g).average j
      = m.avg j + (g j - m.table i j) / (n : ℚ) := rfl
    _ = (∑ i', m.table i' j) / (n : ℚ) + (g j - m.table i j) / (n : ℚ) := by
        rw [show m.avg j = (∑ i', m.table i' j) / (n : ℚ) from h j]
    _ = ((∑ i', m.table i' j) + (g j - m.table i j)) / (n : ℚ) := by
        rw [add_div]
    _ = (∑ i', (m.update i g).table i' j) / (n : ℚ) := by rw [hsum]
    _ = (m.update i g).trueMean j := rfl

theorem GradientMemory.avgInvariant_applyUpdates {n d : ℕ}
    {m : GradientMemory n d} (h : m.avgInvariant)
    (ups : List (Fin n × (Fin d → ℚ))) : (m.applyUpdates ups).avgInvariant := by
  induction ups generalizing m with
  | nil => exact h
  | cons u rest ih =>
    exact ih (GradientMemory.avgInvariant_update h u.1 u.2)

/-- A concrete solver state used to instantiate universally quantified
theorems on examples. -/
def testState : SAGAState :=
  { epoch_size := 0, tol := 0, rand_type := "unif", step := 0, seed := -1,
    vrMethod := VarianceReductionMethod.Last, model := none }

theorem vrSetter_not_mem {s : String} (h : s ∉ vrKeys) :
    vrSetter s = Except.error (SolverError.configurationError (vrErrMsg s)) := by
  simp only [vrKeys, variance_reduction_methods_mapper, List.map, List.mem_cons,
    List.not_mem_nil, or_false, not_or] at h
  obtain ⟨h1, h2, h3⟩ := h
  have e1 : (s == "last") = false := beq_eq_false_iff_ne.mpr h1
  have e2 : (s == "avg") = false := beq_eq_false_iff_ne.mpr h2
  have e3 : (s == "rand") = false := beq_eq_false_iff_ne.mpr h3
  simp [vrSetter, variance_reduction_methods_mapper, List.lookup, e1, e2, e3]

end Tick

namespace Tick

/-- C3: starting from the all-zero table, after any sequence of
`update(i, g)` calls `GradientMemory.average()` equals the arithmetic mean
of the `n` stored rows recomputed from scratch (exactly, in `ℚ`), and each
`update` maintains the average incrementally via
`average += (g_new − g_old)/n`. -/
theorem gradientMemory_average_invariant :
    (∀ (n d : ℕ) (ups : List (Fin n × (Fin d → ℚ))),
      ((GradientMemory.init n d).applyUpdates ups).avgInvariant) ∧
    (∀ (n d : ℕ) (m : GradientMemory n d) (i : Fin n) (g : Fin d → ℚ)
      (j : Fin d),
      (m.update i g).avg j = m.avg j + (g j - m.table i j) / (n : ℚ)) := by
  constructor
  · intro n d ups
    exact GradientMemory.avgInvariant_applyUpdates
      (GradientMemory.avgInvariant_init n d) ups
  · intro n d m i g j
    rfl

/-- C1: for any string outside {'last', 'avg', 'rand'}, both construction
and property assignment fail with the descriptive error naming the allowed
set, and the failed construction produces no solver state at all. -/
theorem variance_reduction_invalid_rejected (s : String) (h : s ∉ vrKeys) :
    (∀ (step : Option ℚ) (es : Option ℤ) (rt : String) (tol : ℚ) (seed : ℤ),
      SAGA_init step es rt tol seed s =
        Except.error (SolverError.configurationError (vrErrMsg s))) ∧
    (∀ st : SAGAState,
      setVarianceReduction st s =
        Except.error (SolverError.configurationError (vrErrMsg s))) ∧
    vrErrMsg s =
      "variance_reduction should be one of \"last, avg, rand\", got \"" ++
        s ++ "\"." := by
  have hset : ∀ st : SAGAState,
      setVarianceReduction st s =
        Except.error (SolverError.configurationError (vrErrMsg s)) := by
    intro st
    simp [setVarianceReduction, vrSetter_not_mem h]
  refine ⟨?_, hset, rfl⟩
  intro step es rt tol seed
  exact hset _

/-- Witness for C1 at the concrete invalid string "bogus". -/
theorem variance_reduction_invalid_rejected_witness :
    SAGA_init none none "unif" 0 (-1) "bogus" =
      Except.error (SolverError.configurationError (vrErrMsg "bogus")) :=
  (variance_reduction_invalid_rejected "bogus" (by decide)).1 none none "unif" 0 (-1)

/-- C2: `set_model` accepts exactly the models with the generalized-linear
capability — attaching the model on success and failing fast with the
incompatible-model error otherwise, before any solving occurs. -/
theorem set_model_capability_gate (st : SAGAState) (m : PyModel) :
    (m.isGeneralizedLinear = true →
      set_model st m = Except.ok { st with model := some m }) ∧
    (m.isGeneralizedLinear = false →
      set_model st m = Except.error (SolverError.incompatibleModelError
        "SAGA accepts only childs of `ModelGeneralizedLinear`")) := by
  constructor <;> intro h <;> simp [set_model, h]

/-- Witness for C2: a capable model is attached, an incapable one is
rejected, at concrete inputs. -/
theorem set_model_capability_gate_witness :
    set_model testState { isGeneralizedLinear := true } =
      Except.ok { testState with model := some { isGeneralizedLinear := true } } ∧
    set_model testState { isGeneralizedLinear := false } =
      Except.error (SolverError.incompatibleModelError
        "SAGA accepts only childs of `ModelGeneralizedLinear`") :=
  ⟨(set_model_capability_gate testState { isGeneralizedLinear := true }).1 rfl,
   (set_model_capability_gate testState { isGeneralizedLinear := false }).2 rfl⟩

/-- C4: one engine step with sampled index `i` moves the iterate to
`Prox.call(x − η·d, η)` with `d = g_i − g_i_cached + average_of_cache`,
where the cached gradient and the cached average are read from the memory
BEFORE this step's update, and the memory is then updated with the fresh
gradient. -/
theorem sagaStep_update_rule (n d : ℕ)
    (grad : (Fin d → ℚ) → Fin n → Fin d → ℚ)
    (prox : (Fin d → ℚ) → ℚ → Fin d → ℚ) (η : ℚ)
    (s : EngineState n d) (i : Fin n) :
    (sagaStep grad prox η s i).x =
      prox (fun j => s.x j -
        η * (grad s.x i j - s.mem.get i j + s.mem.average j)) η ∧
    (sagaStep grad prox η s i).mem = s.mem.update i (grad s.x i) :=
  ⟨rfl, rfl⟩

/-- C6: with `epoch_size` unset or `≤ 0`, the engine performs exactly `n`
steps per epoch instead of raising an error. -/
theorem epoch_size_defaults_to_n (es : Option ℤ) (n : ℕ)
    (h : es = none ∨ ∃ v, es = some v ∧ v ≤ 0) :
    stepsPerEpoch es n = n := by
  rcases h with h | ⟨v, rfl, hv⟩
  · subst h
    simp [stepsPerEpoch, epochSizeArg, effectiveEpochSize]
  · simp [stepsPerEpoch, epochSizeArg, effectiveEpochSize, hv]

/-- Witness for C6: `epoch_size=0` on a dataset of 500 samples gives 500
steps per epoch. -/
theorem epoch_size_defaults_to_n_witness : stepsPerEpoch (some 0) 500 = 500 :=
  epoch_size_defaults_to_n (some 0) 500 (Or.inr ⟨0, rfl, le_refl 0⟩)

/-- C7: with `step` unset or non-positive, under either admissible policy
the solver raises an error or substitutes the positive automatic heuristic
derived from the Lipschitz estimate; it never proceeds with the
non-positive step. -/
theorem step_nonpositive_not_silent (pol : StepPolicy) (lip : ℚ)
    (step : Option ℚ) (hlip : 0 < lip) (h : stepArg step ≤ 0) :
    resolveStep pol lip (stepArg step) =
        Except.error (SolverError.configurationError "step should be positive") ∨
    ∃ s, resolveStep pol lip (stepArg step) = Except.ok s ∧
      s = 1 / lip ∧ 0 < s := by
  have hlt : ¬ 0 < stepArg step := not_lt.mpr h
  cases pol with
  | raiseError =>
    left
    simp [resolveStep, hlt]
  | autoHeuristic =>
    right
    exact ⟨1 / lip, by simp [resolveStep, hlt], rfl, by positivity⟩

/-- Witness for C7 at a concrete unset step and Lipschitz estimate 2. -/
theorem step_nonpositive_not_silent_witness :
    resolveStep StepPolicy.autoHeuristic 2 (stepArg none) =
        Except.error (SolverError.configurationError "step should be positive") ∨
    ∃ s, resolveStep StepPolicy.autoHeuristic 2 (stepArg none) = Except.ok s ∧
      s = 1 / 2 ∧ 0 < s :=
  step_nonpositive_not_silent StepPolicy.autoHeuristic 2 none (by norm_num)
    (by norm_num [stepArg])

/-- C8: with `tol = 0` and a non-negative stopping measure (so the
criterion, checked once per epoch, is never satisfied), a solve with
`max_iter = k` runs exactly `k` epochs. -/
theorem max_iter_ceiling (σ : Type) (runEpoch : σ → σ) (measure : σ → σ → ℚ)
    (hm : ∀ a b, 0 ≤ measure a b) (k : ℕ) (s0 : σ) :
    epochsRun runEpoch measure 0 k s0 = k := by
  induction k generalizing s0 with
  | zero => rfl
  | succ k ih =>
    have hlt : ¬ measure s0 (runEpoch s0) < 0 := not_lt.mpr (hm _ _)
    have step : epochsRun runEpoch measure 0 (k + 1) s0 =
        epochsRun runEpoch measure 0 k (runEpoch s0) + 1 := by
      simp only [epochsRun, solveLoop, hlt, if_false]
    rw [step, ih (runEpoch s0)]

/-- Witness for C8: a concrete solver loop with `tol = 0` and `max_iter = 5`
runs exactly 5 epochs. -/
theorem max_iter_ceiling_witness :
    epochsRun (fun s : ℕ => s + 1) (fun _ _ => 1) 0 5 0 = 5 :=
  max_iter_ceiling ℕ (fun s => s + 1) (fun _ _ => 1)
    (fun _ _ => by norm_num) 5 0

/-- C9: a non-negative seed is used directly, so two solver runs with the
same seed draw the same index sequence and compute the same iterates; a
seed of −1 or an unset seed resolves to the entropy source instead. -/
theorem seed_determinism :
    (∀ e s : ℤ, 0 ≤ s → resolveSeed e (some s) = s) ∧
    (∀ e : ℤ, resolveSeed e none = e ∧ resolveSeed e (some (-1)) = e) ∧
    (∀ (n d : ℕ) [NeZero n] (grad : (Fin d → ℚ) → Fin n → Fin d → ℚ)
      (prox : (Fin d → ℚ) → ℚ → Fin d → ℚ) (η : ℚ) (seed₁ seed₂ : ℤ)
      (t : ℕ) (s0 : EngineState n d), seed₁ = seed₂ →
      uniformSeq n seed₁ t = uniformSeq n seed₂ t ∧
      runSAGA n d grad prox η seed₁ t s0 = runSAGA n d grad prox η seed₂ t s0) := by
  refine ⟨?_, ?_, ?_⟩
  · intro e s hs
    have hne : s ≠ -1 := by omega
    simp [resolveSeed, hne]
  · intro e
    exact ⟨rfl, by simp [resolveSeed]⟩
  · intro n d _ grad prox η seed₁ seed₂ t s0 hseed
    subst hseed
    exact ⟨rfl, rfl⟩

/-- Witness for C9 at concrete seeds and a concrete two-sample solver. -/
theorem seed_determinism_witness :
    resolveSeed 5 (some 7) = 7 ∧ resolveSeed 5 none = 5 ∧
    uniformSeq 2 3 4 = uniformSeq 2 3 4 :=
  ⟨seed_determinism.1 5 7 (by norm_num), (seed_determinism.2.1 5).1,
   (seed_determinism.2.2 2 2 (fun _ _ _ => 0) (fun x _ => x) 1 3 3 4
     { x := fun _ => 0, mem := GradientMemory.init 2 2 } rfl).1⟩

theorem vrSetter_ok_cases {s : String} {m : VarianceReductionMethod}
    (h : vrSetter s = Except.ok m) :
    (s = "last" ∧ m = VarianceReductionMethod.Last) ∨
    (s = "avg" ∧ m = VarianceReductionMethod.Average) ∨
    (s = "rand" ∧ m = VarianceReductionMethod.Random) := by
  by_cases h1 : s = "last"
  · subst h1
    have hv : vrSetter "last" = Except.ok VarianceReductionMethod.Last := rfl
    rw [hv] at h
    exact Or.inl ⟨rfl, (Except.ok.injEq _ _ ▸ h).symm⟩
  by_cases h2 : s = "avg"
  · subst h2
    have hv : vrSetter "avg" = Except.ok VarianceReductionMethod.Average := rfl
    rw [hv] at h
    exact Or.inr (Or.inl ⟨rfl, (Except.ok.injEq _ _ ▸ h).symm⟩)
  by_cases h3 : s = "rand"
  · subst h3
    have hv : vrSetter "rand" = Except.ok VarianceReductionMethod.Random := rfl
    rw [hv] at h
    exact Or.inr (Or.inr ⟨rfl, (Except.ok.injEq _ _ ▸ h).symm⟩)
  · have hmem : s ∉ vrKeys := by
      simp [vrKeys, variance_reduction_methods_mapper, h1, h2, h3]
    rw [vrSetter_not_mem hmem] at h
    cases h

/-- C10: assigning any of 'last', 'avg', 'rand' to the
`variance_reduction` property and reading it back returns the same string,
and (the native enum being fully covered by the mapper) the getter never
returns `None`. -/
theorem variance_reduction_roundtrip :
    (∀ (st st' : SAGAState) (s : String),
      setVarianceReduction st s = Except.ok st' →
      getVarianceReduction st' = some s) ∧
    (∀ st : SAGAState, getVarianceReduction st ≠ none) := by
  constructor
  · intro st st' s h
    cases hv : vrSetter s with
    | error e => simp [setVarianceReduction, hv] at h
    | ok m =>
      simp only [setVarianceReduction, hv] at h
      cases h
      rcases vrSetter_ok_cases hv with ⟨rfl, rfl⟩ | ⟨rfl, rfl⟩ | ⟨rfl, rfl⟩ <;> rfl
  · intro st
    obtain ⟨es, tol, rt, step, seed, vrm, model⟩ := st
    cases vrm <;> simp [getVarianceReduction, variance_reduction_methods_mapper]

/-- Witness for C10: the round-trip at the concrete string "avg". -/
theorem variance_reduction_roundtrip_witness :
    getVarianceReduction
      { testState with vrMethod := VarianceReductionMethod.Average } =
      some "avg" :=
  variance_reduction_roundtrip.1 testState
    { testState with vrMethod := VarianceReductionMethod.Average } "avg" rfl

/-! ## Lemmas: the permutation sampler -/

theorem getD_cons_drop {l : List ℕ} {c : ℕ} (h : c < l.length) :
    l.getD c 0 :: l.drop (c + 1) = l.drop c := by
  rw [List.getD_eq_getElem l 0 h]
  exact List.cons_getElem_drop_succ

/-- Draining the rest of the current permutation: from cursor `c` with
`c + k = n`, the next `k` calls return `p.drop c` and leave the cursor at
`n`. -/
theorem permRun_drain (n : ℕ) (gen : ℕ → List ℕ) :
    ∀ (k c e : ℕ) (p : List ℕ), c + k = n → p.length = n →
      permRun n gen k { permArr := p, cursor := c, epoch := e } =
        (p.drop c, { permArr := p, cursor := n, epoch := e }) := by
  intro k
  induction k with
  | zero =>
    intro c e p hc hp
    have hcn : c = n := by omega
    subst hcn
    simp [permRun, List.drop_length, hp.symm]
  | succ k ih =>
    intro c e p hc hp
    have hnotle : ¬ n ≤ c := by omega
    simp only [permRun, permNext, hnotle, if_false]
    rw [ih (c + 1) e p (by omega) hp]
    rw [getD_cons_drop (show c < p.length by omega)]

/-- A full epoch from an exhausted sampler: the next `n` calls regenerate
and return exactly the permutation `gen e`. -/
theorem permRun_epoch (n : ℕ) (gen : ℕ → List ℕ) (hn : 0 < n) (p : List ℕ)
    (e : ℕ) (hlen : (gen e).length = n) :
    permRun n gen n { permArr := p, cursor := n, epoch := e } =
      (gen e, { permArr := gen e, cursor := n, epoch := e + 1 }) := by
  obtain ⟨m, rfl⟩ : ∃ m, n = m + 1 := ⟨n - 1, by omega⟩
  simp only [permRun, permNext, le_refl, if_true]
  rw [permRun_drain (m + 1) gen m 1 (e + 1) (gen e) (by omega) hlen]
  rw [getD_cons_drop (show 0 < (gen e).length by omega), List.drop_zero]

/-- Splitting a run of `a + b` calls. -/
theorem permRun_add (n : ℕ) (gen : ℕ → List ℕ) (a b : ℕ) :
    ∀ s : PermSamplerState, permRun n gen (a + b) s =
      ((permRun n gen a s).1 ++ (permRun n gen b (permRun n gen a s).2).1,
       (permRun n gen b (permRun n gen a s).2).2) := by
  induction a with
  | zero =>
    intro s
    simp [permRun]
  | succ a ih =>
    intro s
    have hadd : a + 1 + b = (a + b) + 1 := by omega
    rw [hadd]
    simp only [permRun]
    rw [ih (permNext n gen s).2]
    simp

/-- The sampler state after `k` aligned blocks of `n` calls. -/
theorem permRun_aligned_state (n : ℕ) (gen : ℕ → List ℕ) (hn : 0 < n)
    (hlen : ∀ j, (gen j).length = n) :
    ∀ k, (permRun n gen (k * n) (permInit gen)).2 = permStateAfter n gen k := by
  intro k
  induction k with
  | zero =>
    simp [permRun, permStateAfter]
  | succ k ih =>
    have hmul : (k + 1) * n = k * n + n := by ring
    rw [hmul, permRun_add, ih]
    cases k with
    | zero =>
      show (permRun n gen n (permInit gen)).2 = _
      rw [show permInit gen =
          { permArr := gen 0, cursor := 0, epoch := 1 } from rfl]
      rw [permRun_drain n gen n 0 1 (gen 0) (by omega) (hlen 0)]
      rfl
    | succ k' =>
      show (permRun n gen n
        { permArr := gen k', cursor := n, epoch := k' + 1 }).2 = _
      rw [permRun_epoch n gen hn (gen k') (k' + 1) (hlen (k' + 1))]
      rfl

/-- Each aligned block of `n` calls returns exactly the corresponding
generated permutation. -/
theorem permBlock_eq_gen (n : ℕ) (gen : ℕ → List ℕ) (hn : 0 < n)
    (hlen : ∀ j, (gen j).length = n) (k : ℕ) :
    permBlock n gen k = gen k := by
  unfold permBlock
  rw [permRun_aligned_state n gen hn hlen k]
  cases k with
  | zero =>
    rw [show permStateAfter n gen 0 =
        { permArr := gen 0, cursor := 0, epoch := 1 } from rfl]
    rw [permRun_drain n gen n 0 1 (gen 0) (by omega) (hlen 0), List.drop_zero]
  | succ k' =>
    rw [show permStateAfter n gen (k' + 1) =
        { permArr := gen k', cursor := n, epoch := k' + 1 } from rfl]
    rw [permRun_epoch n gen hn (gen k') (k' + 1) (hlen (k' + 1))]

/-- A fixed generator producing the same permutation each epoch, used to
instantiate the coverage theorem on a concrete input. -/
def exGen : ℕ → List ℕ := fun _ => [0, 1]

/-- A generator whose second permutation starts where the first one ended,
exhibiting a repeated index across a permutation boundary. -/
def exGenAlt : ℕ → List ℕ := fun k => if k = 0 then [0, 1] else [1, 0]

/-- C5 (amended): in permutation mode, over each epoch-aligned block of `n`
consecutive calls (calls `k·n+1 … (k+1)·n`), `next_index` returns exactly
the `k`-th generated permutation, so every index in `[0, n)` appears
exactly once per block; whenever the cursor reaches `n` a fresh permutation
is generated and the cursor resets.  (Across a permutation boundary, a
window of `n` consecutive calls may repeat indices; see the
counterexample.) -/
theorem perm_mode_epoch_coverage (n : ℕ) (gen : ℕ → List ℕ) (hn : 0 < n)
    (hgen : ∀ j, (gen j).Perm (List.range n)) (k : ℕ) :
    permBlock n gen k = gen k ∧ (permBlock n gen k).Perm (List.range n) ∧
    ∀ i, i < n → (permBlock n gen k).count i = 1 := by
  have hlen : ∀ j, (gen j).length = n := fun j =>
    ((hgen j).length_eq).trans (List.length_range n)
  have hblock := permBlock_eq_gen n gen hn hlen k
  refine ⟨hblock, hblock ▸ hgen k, ?_⟩
  intro i hi
  rw [hblock]
  have hmem : i ∈ gen k := (hgen k).mem_iff.mpr (List.mem_range.mpr hi)
  have hnodup : (gen k).Nodup := (hgen k).nodup_iff.mpr (List.nodup_range n)
  exact List.count_eq_one_of_mem hnodup hmem

/-- Witness for C5 at a concrete two-element sampler: the first aligned
block of 2 calls is the generated permutation `[0, 1]`. -/
theorem perm_mode_epoch_coverage_witness :
    permBlock 2 exGen 0 = exGen 0 ∧ (permBlock 2 exGen 0).Perm (List.range 2) :=
  ⟨(perm_mode_epoch_coverage 2 exGen (by norm_num) (fun j => by simp only [exGen]; decide) 0).1,
   (perm_mode_epoch_coverage 2 exGen (by norm_num) (fun j => by simp only [exGen]; decide) 0).2.1⟩

/-- C5 counterexample: the claim as stated — coverage over ANY `n`
consecutive calls — fails.  With `n = 2` and genuinely uniform-possible
permutations `[0, 1]` then `[1, 0]`, the first three calls return
`0, 1, 1`; the window consisting of calls 2 and 3 (two consecutive calls)
contains index 1 twice and index 0 not at all. -/
theorem perm_mode_any_window_counterexample :
    (exGenAlt 0).Perm (List.range 2) ∧ (exGenAlt 1).Perm (List.range 2) ∧
    (permRun 2 exGenAlt 3 (permInit exGenAlt)).1 = [0, 1, 1] ∧
    ((permRun 2 exGenAlt 3 (permInit exGenAlt)).1.drop 1).count 0 = 0 ∧
    ((permRun 2 exGenAlt 3 (permInit exGenAlt)).1.drop 1).count 1 = 2 := by
  refine ⟨by decide, by decide, by decide, by decide, by decide⟩

end Tick



